import Mathlib

/-!
Verification of the `termtap` terminal-focus aggregator
(`terminal_focus.py`): the session store, the HTTP ingestion handler
`EventHandler.do_POST`, the dirty-flag refresh coordination, and the
AppleScript window-activation helper, embedded shallowly in Lean.
-/

set_option autoImplicit false

namespace TermTap

/-! ## Python string primitives

The handler relies on CPython's `str.strip`, `str.isdigit`, `str.lower`
and `str()` conversion.  These are embedded below over `List Char` /
`String`, with the Unicode-dependent character classes modelled on the
code points this development manipulates.
-/

/-- Models CPython's default `str.strip` whitespace class: ASCII
whitespace (space, tab, LF, CR, VT, FF), the C1 separators 0x1C-0x1F,
NEL 0x85, NBSP 0xA0, and the Unicode space separators. -/
def pySpace (c : Char) : Bool :=
  c = ' ' || c = '\t' || c = '\n' || c = '\r'
  || c.toNat = 0xB || c.toNat = 0xC
  || (0x1C ≤ c.toNat && c.toNat ≤ 0x1F)
  || c.toNat = 0x85 || c.toNat = 0xA0 || c.toNat = 0x1680
  || (0x2000 ≤ c.toNat && c.toNat ≤ 0x200A)
  || c.toNat = 0x2028 || c.toNat = 0x2029
  || c.toNat = 0x202F || c.toNat = 0x205F || c.toNat = 0x3000

/-- Models CPython's `str.isdigit` character test, which is true for
every character of Unicode `Numeric_Type=Digit` or `Decimal` — not only
ASCII `0`-`9`.  Besides ASCII digits this includes (among others) the
superscript digits `¹ ² ³` (U+00B9/B2/B3) and `⁰ ⁴`-`⁹` (U+2070,
U+2074-2079), the subscript digits U+2080-2089, the Arabic-Indic digits
U+0660-0669 and U+06F0-06F9, the Devanagari digits U+0966-096F, and the
fullwidth digits U+FF10-FF19; those families are modelled here. -/
def pyIsDigit (c : Char) : Bool :=
  ('0' ≤ c && c ≤ '9')
  || c.toNat = 0xB9 || c.toNat = 0xB2 || c.toNat = 0xB3
  || c.toNat = 0x2070 || (0x2074 ≤ c.toNat && c.toNat ≤ 0x2079)
  || (0x2080 ≤ c.toNat && c.toNat ≤ 0x2089)
  || (0x660 ≤ c.toNat && c.toNat ≤ 0x669)
  || (0x6F0 ≤ c.toNat && c.toNat ≤ 0x6F9)
  || (0x966 ≤ c.toNat && c.toNat ≤ 0x96F)
  || (0xFF10 ≤ c.toNat && c.toNat ≤ 0xFF19)

/-- `s.strip()` on the character-list view: drop leading and trailing
whitespace. -/
def pyStripList (l : List Char) : List Char :=
  ((l.dropWhile pySpace).reverse.dropWhile pySpace).reverse

/-- Models CPython's `str.strip()` (no argument form). -/
def pyStrip (s : String) : String :=
  ⟨pyStripList s.data⟩

/-- Models CPython's `str.isdigit()`: false on the empty string, true
iff every character passes `pyIsDigit`. -/
def pyIsDigitStr (s : String) : Bool :=
  !s.data.isEmpty && s.data.all pyIsDigit

/-- Per-character lowercasing as used by `str.lower()`; the handler only
compares against the ASCII token `"terminate"`, so the ASCII range is
the relevant part of the Unicode mapping. -/
def pyLowerChar (c : Char) : Char :=
  if 'A' ≤ c ∧ c ≤ 'Z' then Char.ofNat (c.toNat + 32) else c

/-- Models `str.lower()`. -/
def pyLower (s : String) : String :=
  ⟨s.data.map pyLowerChar⟩

/-! ## JSON values

`json.loads` yields `str`, `int`/`float`, `bool`, `None`, `list` or
`dict` (with string keys).  Numeric payload fields in this development
are integers, so the numeric case is carried as `Int`. -/

inductive JVal where
  | jstr (s : String)
  | jnum (n : Int)
  | jbool (b : Bool)
  | jnull
  | jarr (xs : List JVal)
  | jobj (kvs : List (String × JVal))

theorem prodSnd_sizeOf_lt (p : String × JVal) : sizeOf p.2 < sizeOf p := by
  obtain ⟨a, b⟩ := p
  simp

/-- The Python type name of a parsed JSON value, as shown in
`AttributeError` messages. -/
def pyTypeName : JVal → String
  | .jstr _ => "str"
  | .jnum _ => "int"
  | .jbool _ => "bool"
  | .jnull => "NoneType"
  | .jarr _ => "list"
  | .jobj _ => "dict"

/-- CPython `repr` of a parsed JSON value (string escaping inside nested
containers is not needed by any payload in this development and is
modelled as plain quoting). -/
def pyRepr : JVal → String
  | .jstr s => "\x27" ++ s ++ "\x27"
  | .jnum n => toString n
  | .jbool b => if b then "True" else "False"
  | .jnull => "None"
  | .jarr xs =>
    "[" ++ String.intercalate ", " (xs.attach.map fun x => pyRepr x.1) ++ "]"
  | .jobj kvs =>
    "\x7b" ++ String.intercalate ", "
      (kvs.attach.map fun p => "\x27" ++ p.1.1 ++ "\x27: " ++ pyRepr p.1.2) ++ "\x7d"
decreasing_by
  all_goals simp_wf
  all_goals try exact Nat.lt_trans (List.sizeOf_lt_of_mem x.2) (by omega)
  all_goals exact Nat.lt_trans (Nat.lt_trans (prodSnd_sizeOf_lt p.1) (List.sizeOf_lt_of_mem p.2)) (by omega)

/-- Models CPython `str(v)` on a parsed JSON value: identity on strings,
`repr` otherwise (they coincide for `int`, `bool`, `None`, containers). -/
def pyStr : JVal → String
  | .jstr s => s
  | v => pyRepr v

/-- First-match association lookup. -/
def lookupVal : List (String × JVal) → String → Option JVal
  | [], _ => none
  | (k, v) :: rest, key => if k = key then some v else lookupVal rest key

/-- Models `data.get(key, dflt)` on a parsed JSON object.  `json.loads`
keeps the last binding of a duplicated key, hence the lookup on the
reversed pair list. -/
def dictGet (kvs : List (String × JVal)) (key : String) (dflt : JVal) : JVal :=
  match lookupVal kvs.reverse key with
  | some v => v
  | none => dflt

/-- True iff the object carries the key (`key in data`). -/
def hasKey (kvs : List (String × JVal)) (key : String) : Bool :=
  kvs.any fun p => p.1 = key

/-! ## SessionStore

`SessionStore._sessions` is a `dict` mapping `window_id` to
`{event_title, event_msg, unseen}`.  It is embedded as an
insertion-ordered association list with distinct keys — the ordered
key-value view of a CPython dict.  Each operation mirrors one method of
`SessionStore` (the `threading.Lock` makes every method atomic; the
embedding models the per-operation state transition). -/

structure Session where
  event_title : String
  event_msg : String
  unseen : Bool
deriving DecidableEq

/-- The ordered key-value view of `SessionStore._sessions`. -/
abbrev Store := List (String × Session)

/-- `SessionStore.upsert`: `self._sessions[window_id] = {...}` — a dict
assignment updates an existing key in place (keeping its position) and
otherwise appends the new key at the end. -/
def upsert : Store → String → String → String → Store
  | [], wid, t, m => [(wid, ⟨t, m, true⟩)]
  | (k, v) :: rest, wid, t, m =>
    if k = wid then (wid, ⟨t, m, true⟩) :: rest
    else (k, v) :: upsert rest wid t m

/-- `SessionStore.remove`: `self._sessions.pop(window_id, None)`. -/
def remove : Store → String → Store
  | [], _ => []
  | (k, v) :: rest, wid => if k = wid then rest else (k, v) :: remove rest wid

/-- `SessionStore.mark_all_seen`: sets `session["unseen"] = False` for
every stored session. -/
def mark_all_seen (st : Store) : Store :=
  st.map fun kv => (kv.1, { kv.2 with unseen := false })

/-- `SessionStore.get_all`: a deep snapshot; under value semantics the
result equals the store contents (the aliasing side of the copy is
verified separately on the heap model below). -/
def get_all (st : Store) : Store := st

/-- `SessionStore.has_unseen`: `any(s["unseen"] for s in ...)`. -/
def has_unseen (st : Store) : Bool :=
  st.any fun kv => kv.2.unseen

/-- `SessionStore.count`: `len(self._sessions)`. -/
def count (st : Store) : Nat := st.length

/-- `self._sessions[wid]` as a partial lookup (first match). -/
def lookupSession : Store → String → Option Session
  | [], _ => none
  | (k, v) :: rest, wid => if k = wid then some v else lookupSession rest wid

/-- `wid in self._sessions`. -/
def containsKey : Store → String → Bool
  | [], _ => false
  | (k, _) :: rest, wid => k = wid || containsKey rest wid

/-! ## The ingestion endpoint: `EventHandler.do_POST`

The handler body is embedded as a pure transition on the store.  The
request is taken at the point after `self.rfile.read`: either the body
failed `json.loads` (`undecodable`, the `json.JSONDecodeError` branch)
or it decoded to a `JVal`.  The observable effects — store calls, the
HTTP response, and `app_ref.schedule_refresh()` — are also recorded as
an ordered action trace. -/

inductive ReqBody where
  | undecodable
  | decoded (v : JVal)

/-- The JSON body of an HTTP response: `{"error": msg}` or
`{"status": s, "window_id": wid}`. -/
inductive RespBody where
  | errorMsg (msg : String)
  | statusBody (status : String) (window_id : String)
deriving DecidableEq

/-- One observable step of the handler, in program order. -/
inductive Action where
  | storeRemove (wid : String)
  | storeUpsert (wid t m : String)
  | respond (code : Nat)
  | notifySignal
deriving DecidableEq

structure HandlerResult where
  code : Nat
  body : RespBody
  store : Store
  trace : List Action
deriving DecidableEq

/-- `window_id = str(data.get("window_id", "")).strip()`. -/
def reqWid (kvs : List (String × JVal)) : String :=
  pyStrip (pyStr (dictGet kvs "window_id" (.jstr "")))

/-- `event_title = str(data.get("event_title", "")).strip()`. -/
def reqTitle (kvs : List (String × JVal)) : String :=
  pyStrip (pyStr (dictGet kvs "event_title" (.jstr "")))

/-- `event_msg = str(data.get("event_msg", "")).strip()`. -/
def reqMsg (kvs : List (String × JVal)) : String :=
  pyStrip (pyStr (dictGet kvs "event_msg" (.jstr "")))

/-- The `AttributeError` message raised by `data.get` when the decoded
body is not a dict, as stringified by the `except Exception` handler. -/
def attrErrMsg (v : JVal) : String :=
  "\x27" ++ pyTypeName v ++ "\x27 object has no attribute \x27get\x27"

/-- `EventHandler.do_POST` after the body has been read: validation,
dispatch, response, and refresh signalling.  `appRef` is whether
`EventHandler.app_ref` is set (it is in `main()`; `None` in the unit
tests).  A decoded non-dict body raises `AttributeError` at
`data.get`, which the `except Exception` arm reports as a 500. -/
def do_POST (st : Store) (appRef : Bool) (b : ReqBody) : HandlerResult :=
  match b with
  | .undecodable =>
    ⟨400, .errorMsg "Invalid JSON", st, [.respond 400]⟩
  | .decoded (.jobj kvs) =>
    if reqWid kvs = "" ∨ reqTitle kvs = "" then
      ⟨400, .errorMsg "window_id and event_title are required", st, [.respond 400]⟩
    else if pyIsDigitStr (reqWid kvs) = false then
      ⟨400, .errorMsg "window_id must be a numeric value", st, [.respond 400]⟩
    else if pyLower (reqTitle kvs) = "terminate" then
      ⟨200, .statusBody "removed" (reqWid kvs), remove st (reqWid kvs),
        [.storeRemove (reqWid kvs), .respond 200]
          ++ if appRef then [.notifySignal] else []⟩
    else
      ⟨200, .statusBody "registered" (reqWid kvs),
        upsert st (reqWid kvs) (reqTitle kvs) (reqMsg kvs),
        [.storeUpsert (reqWid kvs) (reqTitle kvs) (reqMsg kvs), .respond 200]
          ++ if appRef then [.notifySignal] else []⟩
  | .decoded v =>
    ⟨500, .errorMsg (attrErrMsg v), st, [.respond 500]⟩

/-- A convenience constructor for the common three-field request
`{"window_id": i, "event_title": t, "event_msg": m}`. -/
def mkRecord (i t m : String) : ReqBody :=
  .decoded (.jobj
    [("window_id", .jstr i), ("event_title", .jstr t), ("event_msg", .jstr m)])

/-! ## Refresh coordination

`TerminalFocusApp` keeps a `threading.Event` dirty flag.
`schedule_refresh` sets it; the 0.5 s `_poll_for_updates` timer checks
it, clears it and rebuilds once when set. -/

/-- `schedule_refresh` / `self._dirty.set()`. -/
def notify (_d : Bool) : Bool := true

/-- `n` successive notifications applied to flag state `d`. -/
def notifyN : Nat → Bool → Bool
  | 0, d => d
  | n + 1, d => notify (notifyN n d)

/-- The flag state after one `_poll_for_updates` tick, and how many
menu rebuilds that tick performed. -/
structure PollResult where
  dirty : Bool
  rebuilds : Nat
deriving DecidableEq

/-- `_poll_for_updates`: if the flag is set, clear it and rebuild once. -/
def poll (d : Bool) : PollResult :=
  if d then ⟨false, 1⟩ else ⟨d, 0⟩

/-- True for the handler actions that mutate the `SessionStore`. -/
def isMutation : Action → Bool
  | .storeRemove _ => true
  | .storeUpsert _ _ _ => true
  | _ => false

/-- True exactly for the refresh-coordinator signal action. -/
def isNotify : Action → Bool
  | .notifySignal => true
  | _ => false

/-! ## Window activation: `focus_terminal_window`

The helper builds an AppleScript from the id by f-string interpolation
and runs it through `subprocess.run` with `timeout=5`; every exception
(`TimeoutExpired` included) is swallowed by `except ...: pass`.  The
external process is modelled by its outcome, supplied as an oracle
argument. -/

/-- The interpolated AppleScript source (the f-string body). -/
def focusScript (wid : String) : String :=
  "\n        tell application \"Terminal\"\n            activate\n            set targetWindow to missing value\n            repeat with w in windows\n                if id of w is "
  ++ wid ++
  " then\n                    set targetWindow to w\n                    exit repeat\n                end if\n            end repeat\n            if targetWindow is not missing value then\n                set index of targetWindow to 1\n            end if\n        end tell\n    "

/-- The argument vector and timeout of the `subprocess.run` call. -/
structure SubprocCall where
  argv : List String
  timeout : Nat
deriving DecidableEq

/-- How the external `osascript` invocation ends. -/
inductive RunOutcome where
  | success
  | timeoutExpired
  | otherFailure
deriving DecidableEq

/-- `subprocess.run(["osascript", "-e", script], capture_output=True,
timeout=5)` in `focus_terminal_window`. -/
def focusCall (wid : String) : SubprocCall :=
  ⟨["osascript", "-e", focusScript wid], 5⟩

/-- `subprocess.run` itself: returns normally or raises, according to
the external outcome. -/
def runSubprocess (o : RunOutcome) : Except String Unit :=
  match o with
  | .success => .ok ()
  | .timeoutExpired => .error "TimeoutExpired"
  | .otherFailure => .error "CalledProcessError"

/-- `focus_terminal_window`: performs the call inside
`try ... except (subprocess.TimeoutExpired, Exception): pass`.  The
returned value records the `SubprocCall` that was issued; an `error`
result would mean an exception escaped the helper. -/
def focus_terminal_window (wid : String) (o : RunOutcome) :
    Except String SubprocCall :=
  match runSubprocess o with
  | .ok () => .ok (focusCall wid)
  | .error _ => .ok (focusCall wid)

/-- One observable step of the menu-item click handler. -/
inductive UiAction where
  | activate (wid : String) (o : RunOutcome)
  | markSeen
  | rebuild
deriving DecidableEq

/-- `TerminalFocusApp._make_click_handler(window_id)`'s `handler`: call
`focus_terminal_window(window_id)`, then `self.store.mark_all_seen()`,
then `self._rebuild_menu()`.  An exception escaping the activation call
would abort the remaining two steps (`error` case). -/
def click_handler (wid : String) (o : RunOutcome) (st : Store) :
    Except String (Store × List UiAction) :=
  match focus_terminal_window wid o with
  | .error e => .error e
  | .ok _ =>
    .ok (mark_all_seen st, [.activate wid o, .markSeen, .rebuild])

/-! ## Heap model of `get_all`'s copy

`get_all` returns `{k: dict(v) for k, v in self._sessions.items()}`: a
fresh outer dict whose inner dicts are fresh copies.  To state snapshot
independence (claim C9) the dict identities are made explicit: sessions
live at numeric heap addresses, the store maps ids to addresses, and
`next` is the allocation frontier.  Mutating a dict is a heap write at
its address. -/

structure HeapState where
  refs : List (String × Nat)
  heap : Nat → Session
  next : Nat

/-- Well-formed: every live store address was allocated. -/
def WFh (s : HeapState) : Bool :=
  s.refs.all fun p => p.2 < s.next

/-- Address of the session dict for `wid`, if stored. -/
def findRef : List (String × Nat) → String → Option Nat
  | [], _ => none
  | (k, a) :: rest, wid => if k = wid then some a else findRef rest wid

/-- The session contents an observer of the store sees for `wid`. -/
def storeView (s : HeapState) (wid : String) : Option Session :=
  (findRef s.refs wid).map s.heap

/-- The session contents read through a snapshot's refs on a heap. -/
def snapView (snap : List (String × Nat)) (h : Nat → Session)
    (wid : String) : Option Session :=
  (findRef snap wid).map h

/-- A single dict mutation: write `v` at address `a`. -/
def writeHeap (h : Nat → Session) (a : Nat) (v : Session) :
    Nat → Session :=
  fun x => if x = a then v else h x

/-- The refs of the snapshot dict: same keys in order, at fresh
consecutive addresses starting at `n`. -/
def snapshotRefs : List (String × Nat) → Nat → List (String × Nat)
  | [], _ => []
  | (k, _) :: rest, n => (k, n) :: snapshotRefs rest (n + 1)

/-- Write the copied session values (`dict(v)`, read from the pristine
store heap `h0`) at the fresh addresses starting at `n`. -/
def copyHeap (h0 : Nat → Session) :
    List (String × Nat) → Nat → (Nat → Session) → Nat → Session
  | [], _, h => h
  | (_, a) :: rest, n, h => copyHeap h0 rest (n + 1) (writeHeap h n (h0 a))

/-- `SessionStore.get_all` on the heap model: the snapshot refs plus
the post-allocation state. -/
def get_allH (s : HeapState) : List (String × Nat) × HeapState :=
  (snapshotRefs s.refs s.next,
   ⟨s.refs, copyHeap s.heap s.refs s.next s.heap, s.next + s.refs.length⟩)

/-- `dict` assignment on the refs list: rebind in place or append. -/
def setRef : List (String × Nat) → String → Nat → List (String × Nat)
  | [], wid, a => [(wid, a)]
  | (k, b) :: rest, wid, a =>
    if k = wid then (wid, a) :: rest else (k, b) :: setRef rest wid a

/-- `SessionStore.upsert` on the heap model: allocate a fresh inner
dict and bind the id to it. -/
def upsertH (s : HeapState) (wid t m : String) : HeapState :=
  ⟨setRef s.refs wid s.next, writeHeap s.heap s.next ⟨t, m, true⟩, s.next + 1⟩

/-- `dict.pop` on the refs list. -/
def removeRef : List (String × Nat) → String → List (String × Nat)
  | [], _ => []
  | (k, a) :: rest, wid => if k = wid then rest else (k, a) :: removeRef rest wid

/-- `SessionStore.remove` on the heap model. -/
def removeH (s : HeapState) (wid : String) : HeapState :=
  ⟨removeRef s.refs wid, s.heap, s.next⟩

/-- In-place writes of `session["unseen"] = False` over the store's
inner dicts. -/
def seenHeap : List (String × Nat) → (Nat → Session) → Nat → Session
  | [], h => h
  | (_, a) :: rest, h =>
    seenHeap rest (writeHeap h a { h a with unseen := false })

/-- `SessionStore.mark_all_seen` on the heap model: mutates the stored
inner dicts, allocates nothing. -/
def mark_all_seenH (s : HeapState) : HeapState :=
  ⟨s.refs, seenHeap s.refs s.heap, s.next⟩

/-! ## Store lemmas -/

theorem lookupSession_upsert_self (st : Store) (wid t m : String) :
    lookupSession (upsert st wid t m) wid = some ⟨t, m, true⟩ := by
  induction st with
  | nil => simp [upsert, lookupSession]
  | cons kv rest ih =>
    obtain ⟨k, v⟩ := kv
    by_cases h : k = wid
    · simp [upsert, h, lookupSession]
    · simp [upsert, h, lookupSession, ih]

theorem lookupSession_upsert_ne (st : Store) (wid t m wid' : String)
    (h : wid' ≠ wid) :
    lookupSession (upsert st wid t m) wid' = lookupSession st wid' := by
  have h' : wid ≠ wid' := Ne.symm h
  induction st with
  | nil => simp [upsert, lookupSession, h']
  | cons kv rest ih =>
    obtain ⟨k, v⟩ := kv
    by_cases hk : k = wid
    · subst hk
      simp [upsert, lookupSession, h']
    · simp [upsert, hk, lookupSession, ih]

theorem containsKey_upsert_self (st : Store) (wid t m : String) :
    containsKey (upsert st wid t m) wid = true := by
  induction st with
  | nil => simp [upsert, containsKey]
  | cons kv rest ih =>
    obtain ⟨k, v⟩ := kv
    by_cases h : k = wid
    · simp [upsert, h, containsKey]
    · simp [upsert, h, containsKey, ih]

theorem count_upsert_of_contains (st : Store) (wid t m : String)
    (h : containsKey st wid = true) :
    count (upsert st wid t m) = count st := by
  induction st with
  | nil => simp [containsKey] at h
  | cons kv rest ih =>
    obtain ⟨k, v⟩ := kv
    by_cases hk : k = wid
    · simp [upsert, hk, count]
    · simp only [containsKey, Bool.or_eq_true, decide_eq_true_eq] at h
      rcases h with h | h
      · exact absurd h hk
      · simp [upsert, hk, count] at ih ⊢
        exact ih h

theorem remove_of_lookup_none (st : Store) (wid : String)
    (h : lookupSession st wid = none) :
    remove st wid = st := by
  induction st with
  | nil => rfl
  | cons kv rest ih =>
    obtain ⟨k, v⟩ := kv
    by_cases hk : k = wid
    · simp [lookupSession, hk] at h
    · simp only [lookupSession] at h
      rw [if_neg hk] at h
      simp [remove, hk, ih h]

theorem has_unseen_mark_all_seen (st : Store) :
    has_unseen (mark_all_seen st) = false := by
  simp [has_unseen, mark_all_seen, List.any_map, Function.comp]

theorem has_unseen_upsert (st : Store) (wid t m : String) :
    has_unseen (upsert st wid t m) = true := by
  induction st with
  | nil => simp [upsert, has_unseen]
  | cons kv rest ih =>
    obtain ⟨k, v⟩ := kv
    by_cases h : k = wid
    · simp [upsert, h, has_unseen]
    · simp [upsert, h, has_unseen] at ih ⊢
      exact Or.inr ih

theorem lookupSession_mark_all_seen_unseen (st : Store) (wid : String)
    (v : Session) (h : lookupSession (mark_all_seen st) wid = some v) :
    v.unseen = false := by
  induction st with
  | nil => simp [mark_all_seen, lookupSession] at h
  | cons kv rest ih =>
    obtain ⟨k, s⟩ := kv
    by_cases hk : k = wid
    · simp [mark_all_seen, lookupSession, hk] at h
      rw [← h]
    · simp only [mark_all_seen, List.map_cons, lookupSession, hk, if_false] at h
      exact ih (by simpa [mark_all_seen] using h)

/-! ## Claims C5 and C6 -/

/-- C5: `upsert(id, title, message)` followed by `getAll()` yields an
entry for `id` with `unseen = true` and exactly the given title and
message; a repeated `upsert` on an already-present id never increases
`count()` and replaces that entry's title and message with the latest
values. -/
theorem c5_upsert_get_all (st : Store) (wid t m t2 m2 : String) :
    lookupSession (get_all (upsert st wid t m)) wid = some ⟨t, m, true⟩
    ∧ (containsKey st wid = true → count (upsert st wid t m) = count st)
    ∧ count (upsert (upsert st wid t m) wid t2 m2) = count (upsert st wid t m)
    ∧ lookupSession (get_all (upsert (upsert st wid t m) wid t2 m2)) wid
        = some ⟨t2, m2, true⟩ :=
  ⟨lookupSession_upsert_self st wid t m,
   fun h => count_upsert_of_contains st wid t m h,
   count_upsert_of_contains _ wid t2 m2 (containsKey_upsert_self st wid t m),
   lookupSession_upsert_self _ wid t2 m2⟩

/-- Witness for C5 at a concrete store with id "7" already present. -/
theorem c5_upsert_get_all_witness :
    containsKey [("7", ⟨"a", "b", false⟩)] "7" = true
    ∧ count (upsert [("7", ⟨"a", "b", false⟩)] "7" "build" "go")
        = count [("7", ⟨"a", "b", false⟩)]
    ∧ lookupSession (get_all (upsert [("7", ⟨"a", "b", false⟩)] "7" "build" "go")) "7"
        = some ⟨"build", "go", true⟩ := by
  have h := c5_upsert_get_all [("7", ⟨"a", "b", false⟩)] "7" "build" "go" "x" "y"
  exact ⟨by decide, h.2.1 (by decide), h.1⟩

/-- C6: `markAllSeen()` clears every unseen flag, so `hasUnseen()` is
false immediately afterwards; a subsequent `upsert` makes `hasUnseen()`
true again while leaving every other id's entry — and hence its cleared
unseen flag — untouched. -/
theorem c6_mark_all_seen_upsert (st : Store) (wid t m : String) :
    has_unseen (mark_all_seen st) = false
    ∧ has_unseen (upsert (mark_all_seen st) wid t m) = true
    ∧ ∀ wid', wid' ≠ wid →
        lookupSession (upsert (mark_all_seen st) wid t m) wid'
          = lookupSession (mark_all_seen st) wid'
        ∧ ∀ v, lookupSession (upsert (mark_all_seen st) wid t m) wid' = some v →
            v.unseen = false := by
  refine ⟨has_unseen_mark_all_seen st, has_unseen_upsert _ wid t m, ?_⟩
  intro wid' hne
  have heq := lookupSession_upsert_ne (mark_all_seen st) wid t m wid' hne
  refine ⟨heq, ?_⟩
  intro v hv
  rw [heq] at hv
  exact lookupSession_mark_all_seen_unseen st wid' v hv

/-- Witness for C6 on a two-session store: after the sweep and an
upsert of "1", session "2" stays seen. -/
theorem c6_mark_all_seen_upsert_witness :
    ("2" : String) ≠ "1"
    ∧ has_unseen (mark_all_seen [("1", ⟨"a", "b", true⟩), ("2", ⟨"c", "d", true⟩)]) = false
    ∧ has_unseen (upsert (mark_all_seen [("1", ⟨"a", "b", true⟩), ("2", ⟨"c", "d", true⟩)])
        "1" "t" "m") = true
    ∧ lookupSession (upsert (mark_all_seen [("1", ⟨"a", "b", true⟩), ("2", ⟨"c", "d", true⟩)])
        "1" "t" "m") "2"
        = lookupSession (mark_all_seen [("1", ⟨"a", "b", true⟩), ("2", ⟨"c", "d", true⟩)]) "2" := by
  have h := c6_mark_all_seen_upsert [("1", ⟨"a", "b", true⟩), ("2", ⟨"c", "d", true⟩)] "1" "t" "m"
  have h2 := h.2.2 "2" (by decide)
  exact ⟨by decide, h.1, h.2.1, h2.1⟩

/-! ## Claims about the ingestion endpoint -/

theorem pyIsDigitStr_ne_empty (s : String) (h : pyIsDigitStr s = true) :
    s ≠ "" := by
  intro he
  subst he
  simp [pyIsDigitStr] at h

theorem lookupVal_eq_none (l : List (String × JVal)) (key : String)
    (h : ∀ p ∈ l, p.1 ≠ key) : lookupVal l key = none := by
  induction l with
  | nil => rfl
  | cons kv rest ih =>
    simp only [lookupVal]
    rw [if_neg (h kv (List.mem_cons_self _ _))]
    exact ih fun p hp => h p (List.mem_cons_of_mem _ hp)

/-- C3: validation runs in the fixed order malformed payload, then
missing id/title after trimming, then non-digit id; the first failing
check determines the error (the missing-field error is reported even
when the id is also non-digit), and every non-200 outcome leaves the
store untouched. -/
theorem c3_validation_order (st : Store) (appRef : Bool) (b : ReqBody) :
    (b = .undecodable →
      do_POST st appRef b = ⟨400, .errorMsg "Invalid JSON", st, [.respond 400]⟩)
    ∧ (∀ kvs, b = .decoded (.jobj kvs) → (reqWid kvs = "" ∨ reqTitle kvs = "") →
        do_POST st appRef b
          = ⟨400, .errorMsg "window_id and event_title are required", st, [.respond 400]⟩)
    ∧ (∀ kvs, b = .decoded (.jobj kvs) → reqWid kvs ≠ "" → reqTitle kvs ≠ "" →
        pyIsDigitStr (reqWid kvs) = false →
        do_POST st appRef b
          = ⟨400, .errorMsg "window_id must be a numeric value", st, [.respond 400]⟩)
    ∧ ((do_POST st appRef b).code ≠ 200 → (do_POST st appRef b).store = st) := by
  refine ⟨?_, ?_, ?_, ?_⟩
  · intro h
    subst h
    rfl
  · intro kvs h hmiss
    subst h
    simp [do_POST, hmiss]
  · intro kvs h h1 h2 hd
    subst h
    simp [do_POST, h1, h2, hd]
  · intro _
    cases b with
    | undecodable => rfl
    | decoded v =>
      cases v with
      | jobj kvs =>
        by_cases h1 : reqWid kvs = "" ∨ reqTitle kvs = ""
        · simp [do_POST, h1]
        · by_cases h2 : pyIsDigitStr (reqWid kvs) = false
          · simp [do_POST, h1, h2]
          · by_cases h3 : pyLower (reqTitle kvs) = "terminate"
            · simp only [do_POST, if_neg h1, if_neg h2, if_pos h3] at *
              simp_all
            · simp only [do_POST, if_neg h1, if_neg h2, if_neg h3] at *
              simp_all
      | jstr s => rfl
      | jnum n => rfl
      | jbool bb => rfl
      | jnull => rfl
      | jarr xs => rfl

/-- Witness for C3: a record with an empty (whitespace) id and a
non-digit title-less body takes the missing-field branch, and a
non-digit id takes the identifier branch; both leave the store as it
was. -/
theorem c3_validation_order_witness :
    do_POST [("9", ⟨"a", "b", true⟩)] true
        (ReqBody.decoded (JVal.jobj [("window_id", JVal.jstr " "), ("event_title", JVal.jstr "abc")]))
      = ⟨400, .errorMsg "window_id and event_title are required",
          [("9", ⟨"a", "b", true⟩)], [.respond 400]⟩
    ∧ do_POST [("9", ⟨"a", "b", true⟩)] true
        (ReqBody.decoded (JVal.jobj [("window_id", JVal.jstr "12x"), ("event_title", JVal.jstr "build")]))
      = ⟨400, .errorMsg "window_id must be a numeric value",
          [("9", ⟨"a", "b", true⟩)], [.respond 400]⟩ := by
  constructor
  · exact (c3_validation_order [("9", ⟨"a", "b", true⟩)] true _).2.1 _ rfl (by decide)
  · exact (c3_validation_order [("9", ⟨"a", "b", true⟩)] true _).2.2.1 _ rfl
      (by decide) (by decide) (by decide)

/-- C4: on a valid request, a title that lowercases to "terminate"
dispatches to `remove(id)` and answers 200 `removed` (a no-op success
when the id is absent), and any other title dispatches to
`upsert(id, title, msg)` and answers 200 `registered`; a missing
`event_msg` defaults to the empty string. -/
theorem c4_event_dispatch (st : Store) (kvs : List (String × JVal))
    (h1 : reqWid kvs ≠ "") (h2 : reqTitle kvs ≠ "")
    (h3 : pyIsDigitStr (reqWid kvs) = true) :
    (pyLower (reqTitle kvs) = "terminate" →
      do_POST st true (.decoded (.jobj kvs))
        = ⟨200, .statusBody "removed" (reqWid kvs), remove st (reqWid kvs),
            [.storeRemove (reqWid kvs), .respond 200, .notifySignal]⟩
      ∧ (lookupSession st (reqWid kvs) = none → remove st (reqWid kvs) = st))
    ∧ (pyLower (reqTitle kvs) ≠ "terminate" →
      do_POST st true (.decoded (.jobj kvs))
        = ⟨200, .statusBody "registered" (reqWid kvs),
            upsert st (reqWid kvs) (reqTitle kvs) (reqMsg kvs),
            [.storeUpsert (reqWid kvs) (reqTitle kvs) (reqMsg kvs),
             .respond 200, .notifySignal]⟩)
    ∧ (hasKey kvs "event_msg" = false → reqMsg kvs = "") := by
  have hmiss : ¬(reqWid kvs = "" ∨ reqTitle kvs = "") := by
    intro h
    rcases h with h | h
    · exact h1 h
    · exact h2 h
  have hdig : ¬(pyIsDigitStr (reqWid kvs) = false) := by
    simp [h3]
  refine ⟨?_, ?_, ?_⟩
  · intro hterm
    refine ⟨?_, fun hnone => remove_of_lookup_none st _ hnone⟩
    simp [do_POST, hmiss, hdig, hterm]
  · intro hterm
    simp [do_POST, hmiss, hdig, hterm]
  · intro habs
    have hall : ∀ p ∈ kvs, p.1 ≠ "event_msg" := by
      intro p hp hk
      have hkey : hasKey kvs "event_msg" = true := by
        unfold hasKey
        rw [List.any_eq_true]
        exact ⟨p, hp, by simp [hk]⟩
      rw [hkey] at habs
      cases habs
    have hnone := lookupVal_eq_none kvs.reverse "event_msg"
      fun p hp => hall p (List.mem_reverse.mp hp)
    simp [reqMsg, dictGet, hnone, pyStr, pyStrip, pyStripList]

/-- Witness for C4: a mixed-case "Terminate" removes the stored id
(and an absent id is a no-op 200), a normal title registers. -/
theorem c4_event_dispatch_witness :
    do_POST [("12345", ⟨"build", "x", true⟩)] true (mkRecord "12345" "Terminate" "")
      = ⟨200, .statusBody "removed" "12345", [],
          [.storeRemove "12345", .respond 200, .notifySignal]⟩
    ∧ do_POST [] true (mkRecord "777" "build" "go")
      = ⟨200, .statusBody "registered" "777", [("777", ⟨"build", "go", true⟩)],
          [.storeUpsert "777" "build" "go", .respond 200, .notifySignal]⟩
    ∧ remove [] "99999" = [] := by
  refine ⟨?_, ?_, ?_⟩
  · have h := (c4_event_dispatch [("12345", ⟨"build", "x", true⟩)]
      [("window_id", .jstr "12345"), ("event_title", .jstr "Terminate"), ("event_msg", .jstr "")]
      (by decide) (by decide) (by decide)).1 (by decide)
    exact h.1.trans (by decide)
  · have h := (c4_event_dispatch []
      [("window_id", .jstr "777"), ("event_title", .jstr "build"), ("event_msg", .jstr "go")]
      (by decide) (by decide) (by decide)).2.1 (by decide)
    exact h.trans (by decide)
  · have h := (c4_event_dispatch []
      [("window_id", .jstr "99999"), ("event_title", .jstr "terminate"), ("event_msg", .jstr "")]
      (by decide) (by decide) (by decide)).1 (by decide)
    exact (h.2 (by decide)).trans (by decide)

/-- C1 (amended): the gate the code applies is CPython's
`str.isdigit`.  Whenever the trimmed id contains a character that
`isdigit` rejects, the endpoint answers 400 `InvalidIdentifier`, the
store is returned unchanged, and the trace shows no store call and no
automation call.  (`isdigit` accepts more than ASCII `0`-`9`; see the
counterexample.) -/
theorem c1_nondigit_rejected (st : Store) (appRef : Bool)
    (kvs : List (String × JVal))
    (h1 : reqWid kvs ≠ "") (h2 : reqTitle kvs ≠ "")
    (h3 : ∃ c ∈ (reqWid kvs).data, pyIsDigit c = false) :
    do_POST st appRef (.decoded (.jobj kvs))
      = ⟨400, .errorMsg "window_id must be a numeric value", st, [.respond 400]⟩ := by
  have hd : pyIsDigitStr (reqWid kvs) = false := by
    obtain ⟨c, hc, hcf⟩ := h3
    have : (reqWid kvs).data.all pyIsDigit = false := by
      rcases hall : (reqWid kvs).data.all pyIsDigit with _ | _
      · rfl
      · rw [List.all_eq_true] at hall
        rw [hall c hc] at hcf
        cases hcf
    simp [pyIsDigitStr, this]
  have hmiss : ¬(reqWid kvs = "" ∨ reqTitle kvs = "") := by
    intro h
    rcases h with h | h
    · exact h1 h
    · exact h2 h
  simp [do_POST, hmiss, hd]

/-- Witness for C1 (amended): id "12x" is rejected with 400 and the
one-entry store survives untouched. -/
theorem c1_nondigit_rejected_witness :
    do_POST [("1", ⟨"t", "m", true⟩)] true
        (ReqBody.decoded (JVal.jobj
          [("window_id", JVal.jstr "12x"), ("event_title", JVal.jstr "build")]))
      = ⟨400, .errorMsg "window_id must be a numeric value",
          [("1", ⟨"t", "m", true⟩)], [.respond 400]⟩ :=
  c1_nondigit_rejected [("1", ⟨"t", "m", true⟩)] true
    [("window_id", JVal.jstr "12x"), ("event_title", JVal.jstr "build")]
    (by decide) (by decide) ⟨'x', by decide, by decide⟩

/-- Counterexample to C1 as stated: the id "²" (U+00B2 SUPERSCRIPT
TWO) contains no decimal digit 0-9, yet `"²".isdigit()` is true in
CPython, so the request is accepted with 200 and the id is stored —
it reaches the `SessionStore` (and would be interpolated into the
AppleScript on a later click). -/
theorem c1_digit_gate_counterexample :
    (do_POST [] true (ReqBody.decoded (JVal.jobj
        [("window_id", JVal.jstr "²"), ("event_title", JVal.jstr "build")]))).code = 200
    ∧ (do_POST [] true (ReqBody.decoded (JVal.jobj
        [("window_id", JVal.jstr "²"), ("event_title", JVal.jstr "build")]))).store
      = [("²", ⟨"build", "", true⟩)]
    ∧ (∀ c ∈ ("²" : String).data, ¬('0' ≤ c ∧ c ≤ '9')) := by
  refine ⟨by decide, by decide, by decide⟩

/-- C2 (amended): a body that `json.loads` rejects is answered 400
`MalformedPayload` ("Invalid JSON"); but a body that is valid JSON
while not a record makes `data.get` raise `AttributeError`, which the
generic `except Exception` arm reports as a 500 with an error body
(store still unchanged). -/
theorem c2_malformed_payload (st : Store) (appRef : Bool) (v : JVal)
    (hv : ∀ kvs, v ≠ JVal.jobj kvs) :
    do_POST st appRef .undecodable
      = ⟨400, .errorMsg "Invalid JSON", st, [.respond 400]⟩
    ∧ (do_POST st appRef (.decoded v)).code = 500
    ∧ (do_POST st appRef (.decoded v)).store = st
    ∧ ∃ m, (do_POST st appRef (.decoded v)).body = .errorMsg m := by
  refine ⟨rfl, ?_, ?_, ?_⟩ <;> cases v
  all_goals try exact absurd rfl (hv _)
  all_goals first
    | rfl
    | exact ⟨_, rfl⟩

/-- Witness for C2 (amended) at the valid-JSON non-record body `[]`. -/
theorem c2_malformed_payload_witness :
    do_POST [] true .undecodable
      = ⟨400, .errorMsg "Invalid JSON", [], [.respond 400]⟩
    ∧ (do_POST [] true (.decoded (JVal.jarr []))).code = 500 := by
  have h := c2_malformed_payload [] true (JVal.jarr [])
    fun kvs hk => JVal.noConfusion hk
  exact ⟨h.1, h.2.1⟩

/-- Counterexample to C2 as stated: the body `[]` is valid JSON but
not a record; the endpoint answers 500 (internal fault via
`AttributeError`), not the claimed 400-class `MalformedPayload`. -/
theorem c2_nonrecord_counterexample :
    (do_POST [] true (ReqBody.decoded (JVal.jarr []))).code = 500
    ∧ (do_POST [] true (ReqBody.decoded (JVal.jarr []))).body
      = .errorMsg "\x27list\x27 object has no attribute \x27get\x27" := by
  exact ⟨rfl, rfl⟩

/-- C7: every successful dispatch issues exactly one refresh signal, it
is the last action of the handler — in particular after the store
mutation, which is the first action; the dirty flag is idempotent, and
any positive number of notifications before a poll collapse into
exactly one rebuild at that poll. -/
theorem c7_notify_after_mutation (st : Store) (b : ReqBody)
    (h : (do_POST st true b).code = 200) :
    ((do_POST st true b).trace.filter isNotify).length = 1
    ∧ (do_POST st true b).trace.getLast? = some .notifySignal
    ∧ (∃ a, (do_POST st true b).trace.head? = some a ∧ isMutation a = true)
    ∧ (∀ d, notify (notify d) = notify d)
    ∧ (∀ n d, 1 ≤ n → (poll (notifyN n d)).rebuilds = 1) := by
  have hside : (∀ d, notify (notify d) = notify d)
      ∧ ∀ n d, 1 ≤ n → (poll (notifyN n d)).rebuilds = 1 := by
    refine ⟨fun d => rfl, ?_⟩
    intro n d hn
    cases n with
    | zero => omega
    | succ k => simp [notifyN, notify, poll]
  cases b with
  | undecodable => simp [do_POST] at h
  | decoded v =>
    cases v with
    | jobj kvs =>
      by_cases h1 : reqWid kvs = "" ∨ reqTitle kvs = ""
      · simp [do_POST, h1] at h
      · by_cases h2 : pyIsDigitStr (reqWid kvs) = false
        · simp [do_POST, h1, h2] at h
        · by_cases h3 : pyLower (reqTitle kvs) = "terminate"
          · simp only [do_POST, if_neg h1, if_neg h2, if_pos h3]
            refine ⟨?_, ?_, ⟨_, rfl, rfl⟩, hside.1, hside.2⟩
            · simp [isNotify, List.filter]
            · simp [List.getLast?]
          · simp only [do_POST, if_neg h1, if_neg h2, if_neg h3]
            refine ⟨?_, ?_, ⟨_, rfl, rfl⟩, hside.1, hside.2⟩
            · simp [isNotify, List.filter]
            · simp [List.getLast?]
    | jstr s => simp [do_POST] at h
    | jnum n => simp [do_POST] at h
    | jbool bb => simp [do_POST] at h
    | jnull => simp [do_POST] at h
    | jarr xs => simp [do_POST] at h

/-- Witness for C7 at a concrete successful register request and a
three-notification burst. -/
theorem c7_notify_after_mutation_witness :
    (do_POST [] true (mkRecord "1" "build" "")).code = 200
    ∧ ((do_POST [] true (mkRecord "1" "build" "")).trace.filter isNotify).length = 1
    ∧ (do_POST [] true (mkRecord "1" "build" "")).trace.getLast? = some .notifySignal
    ∧ (poll (notifyN 3 false)).rebuilds = 1 := by
  have h : (do_POST [] true (mkRecord "1" "build" "")).code = 200 := by decide
  have hc := c7_notify_after_mutation [] (mkRecord "1" "build" "") h
  exact ⟨h, hc.1, hc.2.1, hc.2.2.2.2 3 false (by omega)⟩

/-- C8: `focus_terminal_window` never lets an exception escape for any
id and any outcome of the external process; the `subprocess.run` call
it issues is bounded by `timeout=5`; and the click handler always runs
activation, then `mark_all_seen`, then the immediate rebuild — the
last two regardless of the activation outcome. -/
theorem c8_activation_absorbed (wid : String) (o : RunOutcome) (st : Store) :
    (∃ c, focus_terminal_window wid o = .ok c ∧ c.timeout = 5
      ∧ c.argv = ["osascript", "-e", focusScript wid])
    ∧ click_handler wid o st
        = .ok (mark_all_seen st, [.activate wid o, .markSeen, .rebuild]) := by
  cases o <;> exact ⟨⟨focusCall wid, rfl, rfl, rfl⟩, rfl⟩

/-! ## Trimming (claim C10) -/

theorem dropWhile_append_all {p : Char → Bool} {w l : List Char}
    (h : ∀ c ∈ w, p c = true) :
    (w ++ l).dropWhile p = l.dropWhile p := by
  induction w with
  | nil => rfl
  | cons a w ih =>
    have ha : p a = true := h a (List.mem_cons_self _ _)
    simp only [List.cons_append, List.dropWhile_cons, ha, if_true]
    exact ih fun c hc => h c (List.mem_cons_of_mem _ hc)

theorem dropWhile_eq_nil_all {p : Char → Bool} {w : List Char}
    (h : ∀ c ∈ w, p c = true) : w.dropWhile p = [] := by
  have := @dropWhile_append_all p w [] h
  simpa using this

theorem dropWhile_append_of_mem {p : Char → Bool} {l w : List Char}
    (h : ∃ c ∈ l, p c = false) :
    (l ++ w).dropWhile p = l.dropWhile p ++ w := by
  induction l with
  | nil => simp at h
  | cons a l ih =>
    by_cases ha : p a = true
    · obtain ⟨c, hc, hcf⟩ := h
      have h' : ∃ c ∈ l, p c = false := by
        rcases List.mem_cons.mp hc with rfl | hc'
        · rw [ha] at hcf
          cases hcf
        · exact ⟨c, hc', hcf⟩
      simp only [List.cons_append, List.dropWhile_cons, ha, if_true]
      exact ih h'
    · simp [List.cons_append, List.dropWhile_cons, ha]

theorem pyStripList_pad (w1 w2 l : List Char)
    (h1 : ∀ c ∈ w1, pySpace c = true) (h2 : ∀ c ∈ w2, pySpace c = true) :
    pyStripList (w1 ++ l ++ w2) = pyStripList l := by
  unfold pyStripList
  rw [List.append_assoc, dropWhile_append_all h1]
  by_cases hall : ∀ c ∈ l, pySpace c = true
  · rw [dropWhile_append_all hall, dropWhile_eq_nil_all h2,
      dropWhile_eq_nil_all hall]
  · have hex : ∃ c ∈ l, pySpace c = false := by
      push_neg at hall
      obtain ⟨c, hc, hcf⟩ := hall
      exact ⟨c, hc, by simpa using hcf⟩
    rw [dropWhile_append_of_mem hex, List.reverse_append,
      dropWhile_append_all fun c hc => h2 c (List.mem_reverse.mp hc)]

theorem pyStrip_pad (s : String) (w1 w2 : List Char)
    (h1 : ∀ c ∈ w1, pySpace c = true) (h2 : ∀ c ∈ w2, pySpace c = true) :
    pyStrip ⟨w1 ++ s.data ++ w2⟩ = pyStrip s := by
  unfold pyStrip
  exact congrArg String.mk (pyStripList_pad w1 w2 s.data h1 h2)

/-- The three field extractions on the literal three-field record. -/
theorem reqFields_mkRecord (i t m : String) :
    reqWid [("window_id", .jstr i), ("event_title", .jstr t), ("event_msg", .jstr m)]
        = pyStrip i
    ∧ reqTitle [("window_id", .jstr i), ("event_title", .jstr t), ("event_msg", .jstr m)]
        = pyStrip t
    ∧ reqMsg [("window_id", .jstr i), ("event_title", .jstr t), ("event_msg", .jstr m)]
        = pyStrip m := by
  refine ⟨?_, ?_, ?_⟩ <;>
    simp [reqWid, reqTitle, reqMsg, dictGet, lookupVal, pyStr]

/-- `do_POST` on a record depends on the payload only through the
three extracted, trimmed fields. -/
theorem do_POST_record_congr (st : Store) (appRef : Bool)
    (kvs1 kvs2 : List (String × JVal))
    (hw : reqWid kvs1 = reqWid kvs2) (ht : reqTitle kvs1 = reqTitle kvs2)
    (hm : reqMsg kvs1 = reqMsg kvs2) :
    do_POST st appRef (.decoded (.jobj kvs1))
      = do_POST st appRef (.decoded (.jobj kvs2)) := by
  simp only [do_POST, hw, ht, hm]

/-- C10: a successful register stores and echoes trimmed values — the
stored key and echoed `window_id` are the trimmed id, the stored
message is the trimmed `event_msg` — so two requests that differ only
in surrounding whitespace of id or `event_msg` are handled
identically. -/
theorem c10_trimming (st : Store) (appRef : Bool) (i t m : String)
    (w1 w2 w3 w4 : List Char)
    (hw1 : ∀ c ∈ w1, pySpace c = true) (hw2 : ∀ c ∈ w2, pySpace c = true)
    (hw3 : ∀ c ∈ w3, pySpace c = true) (hw4 : ∀ c ∈ w4, pySpace c = true)
    (hid : pyIsDigitStr (pyStrip i) = true) (ht : pyStrip t ≠ "")
    (hterm : pyLower (pyStrip t) ≠ "terminate") :
    do_POST st appRef (mkRecord ⟨w1 ++ i.data ++ w2⟩ t ⟨w3 ++ m.data ++ w4⟩)
      = do_POST st appRef (mkRecord i t m)
    ∧ (do_POST st appRef (mkRecord i t m)).body
        = .statusBody "registered" (pyStrip i)
    ∧ lookupSession (do_POST st appRef (mkRecord i t m)).store (pyStrip i)
        = some ⟨pyStrip t, pyStrip m, true⟩ := by
  obtain ⟨e1, e2, e3⟩ := reqFields_mkRecord i t m
  obtain ⟨f1, f2, f3⟩ := reqFields_mkRecord ⟨w1 ++ i.data ++ w2⟩ t ⟨w3 ++ m.data ++ w4⟩
  have hmiss : ¬(pyStrip i = "" ∨ pyStrip t = "") := by
    intro h
    rcases h with h | h
    · exact pyIsDigitStr_ne_empty _ hid h
    · exact ht h
  have hdig : ¬(pyIsDigitStr (pyStrip i) = false) := by
    simp [hid]
  have hplain : do_POST st appRef (mkRecord i t m)
      = ⟨200, .statusBody "registered" (pyStrip i),
          upsert st (pyStrip i) (pyStrip t) (pyStrip m),
          [.storeUpsert (pyStrip i) (pyStrip t) (pyStrip m), .respond 200]
            ++ if appRef then [.notifySignal] else []⟩ := by
    show do_POST st appRef (.decoded (.jobj _)) = _
    simp [do_POST, e1, e2, e3, hmiss, hdig, hterm]
  refine ⟨?_, ?_, ?_⟩
  · show do_POST st appRef (.decoded (.jobj _)) = do_POST st appRef (.decoded (.jobj _))
    apply do_POST_record_congr
    · rw [f1, e1, pyStrip_pad i w1 w2 hw1 hw2]
    · rw [f2, e2]
    · rw [f3, e3, pyStrip_pad m w3 w4 hw3 hw4]
  · rw [hplain]
  · rw [hplain]
    exact lookupSession_upsert_self st (pyStrip i) (pyStrip t) (pyStrip m)

/-- Witness for C10: padding id and message with spaces yields the
same handling as the unpadded request. -/
theorem c10_trimming_witness :
    do_POST [] true (mkRecord ⟨[' '] ++ ("42" : String).data ++ [' ']⟩ "build"
        ⟨[' '] ++ ("go" : String).data ++ [' ']⟩)
      = do_POST [] true (mkRecord "42" "build" "go")
    ∧ (do_POST [] true (mkRecord "42" "build" "go")).body
        = .statusBody "registered" (pyStrip "42")
    ∧ lookupSession (do_POST [] true (mkRecord "42" "build" "go")).store (pyStrip "42")
        = some ⟨pyStrip "build", pyStrip "go", true⟩ :=
  c10_trimming [] true "42" "build" "go" [' '] [' '] [' '] [' ']
    (by decide) (by decide) (by decide) (by decide)
    (by decide) (by decide) (by decide)

/-! ## Snapshot independence (claim C9) -/

theorem snapshotRefs_addr_range (refs : List (String × Nat)) :
    ∀ (n a : Nat), a ∈ (snapshotRefs refs n).map Prod.snd →
      n ≤ a ∧ a < n + refs.length := by
  induction refs with
  | nil =>
    intro n a h
    simp [snapshotRefs] at h
  | cons kv rest ih =>
    intro n a h
    obtain ⟨k, b⟩ := kv
    simp only [snapshotRefs, List.map_cons, List.mem_cons] at h
    rcases h with rfl | h
    · simp only [List.length_cons]
      omega
    · have := ih (n + 1) a h
      simp only [List.length_cons]
      omega

theorem copyHeap_lt (refs : List (String × Nat)) :
    ∀ (n : Nat) (h0 h : Nat → Session) (x : Nat), x < n →
      copyHeap h0 refs n h x = h x := by
  induction refs with
  | nil =>
    intro n h0 h x _
    rfl
  | cons kv rest ih =>
    intro n h0 h x hx
    obtain ⟨k, a⟩ := kv
    simp only [copyHeap]
    rw [ih (n + 1) h0 _ x (by omega)]
    unfold writeHeap
    rw [if_neg (by omega)]

theorem findRef_mem_snd (l : List (String × Nat)) :
    ∀ (wid : String) (a : Nat), findRef l wid = some a →
      a ∈ l.map Prod.snd := by
  induction l with
  | nil =>
    intro wid a h
    cases h
  | cons kv rest ih =>
    intro wid a h
    obtain ⟨k, b⟩ := kv
    simp only [findRef] at h
    by_cases hk : k = wid
    · rw [if_pos hk] at h
      injection h with h
      simp [h]
    · rw [if_neg hk] at h
      simp [ih wid a h]

theorem seenHeap_ge (refs : List (String × Nat)) :
    ∀ (h : Nat → Session) (n x : Nat),
      (∀ p ∈ refs, p.2 < n) → n ≤ x → seenHeap refs h x = h x := by
  induction refs with
  | nil =>
    intro h n x _ _
    rfl
  | cons kv rest ih =>
    intro h n x hlt hx
    obtain ⟨k, a⟩ := kv
    simp only [seenHeap]
    rw [ih _ n x (fun p hp => hlt p (List.mem_cons_of_mem _ hp)) hx]
    have ha : a < n := hlt (k, a) (List.mem_cons_self _ _)
    unfold writeHeap
    rw [if_neg (by omega)]

theorem snapView_copy (refs : List (String × Nat)) :
    ∀ (n : Nat) (h0 h : Nat → Session) (wid : String),
      snapView (snapshotRefs refs n) (copyHeap h0 refs n h) wid
        = (findRef refs wid).map h0 := by
  induction refs with
  | nil =>
    intro n h0 h wid
    rfl
  | cons kv rest ih =>
    intro n h0 h wid
    obtain ⟨k, a⟩ := kv
    simp only [snapshotRefs, copyHeap, snapView, findRef]
    by_cases hk : k = wid
    · rw [if_pos hk, if_pos hk]
      simp only [Option.map_some']
      rw [copyHeap_lt rest (n + 1) h0 _ n (by omega)]
      unfold writeHeap
      rw [if_pos rfl]
    · rw [if_neg hk, if_neg hk]
      exact ih (n + 1) h0 _ wid

/-- C9: `getAll()` returns a faithful copy of the map at fresh inner
dicts: the snapshot reads back the stored sessions; the call leaves
the store's own view intact; writing through any snapshot address
changes no heap cell the store can reach, so no later store operation
or `getAll()` observes it; and `upsert`, `remove`, `markAllSeen`
performed on the store afterwards never change what the snapshot
reads. -/
theorem c9_get_all_snapshot (s : HeapState) (hWF : WFh s = true) :
    (∀ wid, snapView (get_allH s).1 (get_allH s).2.heap wid = storeView s wid)
    ∧ (∀ wid, storeView (get_allH s).2 wid = storeView s wid)
    ∧ (∀ a v x, a ∈ (get_allH s).1.map Prod.snd → x < s.next →
        writeHeap (get_allH s).2.heap a v x = (get_allH s).2.heap x)
    ∧ (∀ a v wid, a ∈ (get_allH s).1.map Prod.snd →
        storeView ⟨(get_allH s).2.refs, writeHeap (get_allH s).2.heap a v,
          (get_allH s).2.next⟩ wid = storeView s wid)
    ∧ (∀ wid t m wid',
        snapView (get_allH s).1 (upsertH (get_allH s).2 wid t m).heap wid'
          = snapView (get_allH s).1 (get_allH s).2.heap wid')
    ∧ (∀ wid wid',
        snapView (get_allH s).1 (removeH (get_allH s).2 wid).heap wid'
          = snapView (get_allH s).1 (get_allH s).2.heap wid')
    ∧ (∀ wid',
        snapView (get_allH s).1 (mark_all_seenH (get_allH s).2).heap wid'
          = snapView (get_allH s).1 (get_allH s).2.heap wid') := by
  have hlt : ∀ p ∈ s.refs, p.2 < s.next := by
    intro p hp
    exact of_decide_eq_true (List.all_eq_true.mp hWF p hp)
  refine ⟨?_, ?_, ?_, ?_, ?_, ?_, ?_⟩
  · intro wid
    exact snapView_copy s.refs s.next s.heap s.heap wid
  · intro wid
    show (findRef s.refs wid).map _ = (findRef s.refs wid).map s.heap
    cases hfr : findRef s.refs wid with
    | none => rfl
    | some b =>
      obtain ⟨p, hp, hpb⟩ := List.mem_map.mp (findRef_mem_snd s.refs wid b hfr)
      have hb : b < s.next := hpb ▸ hlt p hp
      simp only [Option.map_some']
      rw [show (get_allH s).2.heap = copyHeap s.heap s.refs s.next s.heap from rfl]
      rw [copyHeap_lt s.refs s.next s.heap s.heap b hb]
  · intro a v x ha hx
    have hrange := snapshotRefs_addr_range s.refs s.next a ha
    unfold writeHeap
    rw [if_neg (by omega)]
  · intro a v wid ha
    have hrange := snapshotRefs_addr_range s.refs s.next a ha
    show (findRef s.refs wid).map _ = (findRef s.refs wid).map s.heap
    cases hfr : findRef s.refs wid with
    | none => rfl
    | some b =>
      obtain ⟨p, hp, hpb⟩ := List.mem_map.mp (findRef_mem_snd s.refs wid b hfr)
      have hb : b < s.next := hpb ▸ hlt p hp
      simp only [Option.map_some']
      unfold writeHeap
      rw [if_neg (by omega)]
      rw [show (get_allH s).2.heap = copyHeap s.heap s.refs s.next s.heap from rfl]
      rw [copyHeap_lt s.refs s.next s.heap s.heap b hb]
  · intro wid t m wid'
    show (findRef (get_allH s).1 wid').map _ = (findRef (get_allH s).1 wid').map _
    cases hfr : findRef (get_allH s).1 wid' with
    | none => rfl
    | some a =>
      have hrange := snapshotRefs_addr_range s.refs s.next a
        (findRef_mem_snd _ wid' a hfr)
      simp only [Option.map_some', upsertH]
      unfold writeHeap
      rw [if_neg ?_]
      show ¬ a = s.next + s.refs.length
      omega
  · intro wid wid'
    rfl
  · intro wid'
    show (findRef (get_allH s).1 wid').map _ = (findRef (get_allH s).1 wid').map _
    cases hfr : findRef (get_allH s).1 wid' with
    | none => rfl
    | some a =>
      have hrange := snapshotRefs_addr_range s.refs s.next a
        (findRef_mem_snd _ wid' a hfr)
      simp only [Option.map_some', mark_all_seenH]
      rw [show (get_allH s).2.refs = s.refs from rfl]
      rw [seenHeap_ge s.refs _ s.next a hlt (by omega)]

/-- A one-session heap state used to witness C9. -/
def exampleHeapState : HeapState :=
  ⟨[("5", 0)], fun _ => ⟨"t", "m", true⟩, 1⟩

/-- Witness for C9 at `exampleHeapState`. -/
theorem c9_get_all_snapshot_witness :
    WFh exampleHeapState = true
    ∧ snapView (get_allH exampleHeapState).1 (get_allH exampleHeapState).2.heap "5"
        = storeView exampleHeapState "5"
    ∧ snapView (get_allH exampleHeapState).1
        (mark_all_seenH (get_allH exampleHeapState).2).heap "5"
        = snapView (get_allH exampleHeapState).1 (get_allH exampleHeapState).2.heap "5" := by
  have hwf : WFh exampleHeapState = true := by decide
  have h := c9_get_all_snapshot exampleHeapState hwf
  exact ⟨hwf, h.1 "5", h.2.2.2.2.2.2 "5"⟩

end TermTap
